import Mathlib

/-!
Verification of the timer-tracking shim (`src/index.ts`).

The shim wraps the host's four timer entry points (`window.setTimeout`,
`window.clearTimeout`, `window.setInterval`, `window.clearInterval`),
keeps two insertion-ordered maps (`tracker.timeouts`, `tracker.intervals`)
from timer handle to a `TimerInfo` record, and exposes a reporting facade
(`getActiveTimeouts`, `getActiveIntervals`, `report`,
`copyReportToClipboard`).

Modelling conventions:
* A JavaScript `Map` is modelled as an association list with the exact
  `Map` semantics: `set` overwrites the value of an existing key in place
  (keeping its position), otherwise appends at the end; `delete` removes
  the entry; iteration order is list order.
* The native timer functions live in the host, not in this repository, so
  a wrapper takes the native function as an explicit parameter returning
  `Except JsError Nat` (a thrown exception or a numeric handle).
* JavaScript exceptions are modelled with `Except`; the state is threaded
  explicitly, so a wrapper returns its result together with the tracker
  state after the call.
* Timestamps (`Date.now()`) are integers (milliseconds since epoch).
* `delay` is `Option Int`: `none` is JavaScript `undefined`.
-/

/-- The `TimerInfo` record of `src/index.ts`: creation time, requested
delay, and the origin tag captured from the stack. -/
structure TimerInfo where
  createdAt : Int
  delay : Int
  stack : String
  deriving Repr, DecidableEq

/-- The `tracker` object: the two registries. -/
structure Tracker where
  timeouts : List (Nat × TimerInfo)
  intervals : List (Nat × TimerInfo)
  deriving Repr, DecidableEq

/-- The tracker at module initialisation: two empty maps. -/
def Tracker.init : Tracker := ⟨[], []⟩

/-- `Map.prototype.get` / key lookup on the association-list model. -/
def lookupA {κ α : Type} [DecidableEq κ] : List (κ × α) → κ → Option α
  | [], _ => none
  | (k', v) :: rest, k => if k' = k then some v else lookupA rest k

/-- `Map.prototype.set`: overwrite in place if the key is present,
otherwise append at the end (JavaScript `Map` insertion order). -/
def mapSet {κ α : Type} [DecidableEq κ] : List (κ × α) → κ → α → List (κ × α)
  | [], k, v => [(k, v)]
  | (k', v') :: rest, k, v =>
    if k' = k then (k, v) :: rest else (k', v') :: mapSet rest k v

/-- `Map.prototype.delete`: remove the entry with the given key. -/
def mapDelete {κ α : Type} [DecidableEq κ] : List (κ × α) → κ → List (κ × α)
  | [], _ => []
  | (k', v') :: rest, k =>
    if k' = k then rest else (k', v') :: mapDelete rest k

/-- The keys of a map are pairwise distinct (true of every reachable
tracker state, since a JavaScript `Map` never holds a key twice). -/
def NodupKeys {κ α : Type} (m : List (κ × α)) : Prop :=
  (m.map Prod.fst).Nodup

/-- A JavaScript exception, as far as the shim inspects it:
`err instanceof DOMException`, `err.name`, and its message text. -/
structure JsError where
  isDOMException : Bool
  name : String
  message : String
  deriving Repr, DecidableEq

/-- `String.prototype.split` with the one-character separator `'\n'`,
character by character on the underlying list. -/
def splitLines : List Char → List (List Char)
  | [] => [[]]
  | c :: rest =>
    match splitLines rest with
    | [] => [[c]]
    | l :: ls => if c = '\n' then [] :: l :: ls else (c :: l) :: ls

/-- `s.split('\n')` on Lean strings. -/
def jsSplitNewline (s : String) : List String :=
  (splitLines s.data).map String.mk

/-- `String.prototype.trim`: strip leading and trailing whitespace. -/
def jsTrim (s : String) : String :=
  String.mk (((s.data.dropWhile Char.isWhitespace).reverse.dropWhile Char.isWhitespace).reverse)

/-- `getStackTag` of `src/index.ts`:
`err.stack?.split('\n') || []`, then `stack[3]?.trim() || 'unknown'`
(`||` takes the fallback when the frame is `undefined` or its trimmed
text is the empty string, both falsy).  The argument is the ambient
`new Error().stack` (`none` when stack introspection is unavailable). -/
def getStackTag (stack? : Option String) : String :=
  let stack := match stack? with
    | some s => jsSplitNewline s
    | none => []
  match stack[3]? with
  | some frame => if jsTrim frame = "" then "unknown" else jsTrim frame
  | none => "unknown"

/-- `delay || 0` for `delay : number | undefined` (`0 || 0` is `0`, so on
integers this is exactly `getD 0`). -/
def delayOrZero (delay : Option Int) : Int := delay.getD 0

/-- The wrapped `window.setTimeout`.  `original` is the saved native
`setTimeout` (a host function of the callback, the delay and the trailing
arguments, which either throws or returns a handle); `now` is `Date.now()`
and `stack?` the ambient stack text read by `getStackTag`.  The wrapper
calls the original with the identical arguments, and only on success
inserts the record and returns the handle; a thrown exception propagates
with the tracker unchanged. -/
def wrappedSetTimeout {Cb V : Type} (original : Cb → Option Int → List V → Except JsError Nat)
    (now : Int) (stack? : Option String) (s : Tracker)
    (fn : Cb) (delay : Option Int) (args : List V) : Except JsError Nat × Tracker :=
  match original fn delay args with
  | .error e => (.error e, s)
  | .ok id =>
    let info : TimerInfo := ⟨now, delayOrZero delay, getStackTag stack?⟩
    (.ok id, { s with timeouts := mapSet s.timeouts id info })

/-- The wrapped `window.clearTimeout`: when the handle is defined, delete
it from `tracker.timeouts` and call the native `clearTimeout` (which has
no effect on the registry); when it is `undefined`, do nothing. -/
def wrappedClearTimeout (id : Option Nat) (s : Tracker) : Tracker :=
  match id with
  | none => s
  | some id => { s with timeouts := mapDelete s.timeouts id }

/-- The wrapped `window.setInterval`, symmetric to `wrappedSetTimeout`
against `tracker.intervals`. -/
def wrappedSetInterval {Cb V : Type} (original : Cb → Option Int → List V → Except JsError Nat)
    (now : Int) (stack? : Option String) (s : Tracker)
    (fn : Cb) (delay : Option Int) (args : List V) : Except JsError Nat × Tracker :=
  match original fn delay args with
  | .error e => (.error e, s)
  | .ok id =>
    let info : TimerInfo := ⟨now, delayOrZero delay, getStackTag stack?⟩
    (.ok id, { s with intervals := mapSet s.intervals id info })

/-- The wrapped `window.clearInterval`, symmetric to
`wrappedClearTimeout` against `tracker.intervals`. -/
def wrappedClearInterval (id : Option Nat) (s : Tracker) : Tracker :=
  match id with
  | none => s
  | some id => { s with intervals := mapDelete s.intervals id }

/-- `TIMER_TRACKER.getActiveTimeouts`: `[...tracker.timeouts.entries()]`. -/
def getActiveTimeouts (s : Tracker) : List (Nat × TimerInfo) := s.timeouts

/-- `TIMER_TRACKER.getActiveIntervals`: `[...tracker.intervals.entries()]`. -/
def getActiveIntervals (s : Tracker) : List (Nat × TimerInfo) := s.intervals

/-!
### Event sequences

A run of the instrumented page is a sequence of calls to the four wrapped
entry points.  Each registration event records the handle the host handed
back (the native call succeeding), `Date.now()`, the delay argument and
the ambient stack text; each cancellation event records the (possibly
`undefined`) handle argument.
-/

/-- One call to a wrapped registration or cancellation entry point. -/
inductive Event where
  | regT (h : Nat) (now : Int) (delay : Option Int) (stack? : Option String)
  | cancelT (h : Option Nat)
  | regI (h : Nat) (now : Int) (delay : Option Int) (stack? : Option String)
  | cancelI (h : Option Nat)
  deriving Repr, DecidableEq

/-- The tracker-state effect of one event, through the wrapped functions
(the host's native registration returning the recorded handle). -/
def step (s : Tracker) : Event → Tracker
  | .regT h now delay stack? =>
    (wrappedSetTimeout (fun (_ : Unit) _ (_ : List Unit) => .ok h) now stack? s () delay []).2
  | .cancelT h => wrappedClearTimeout h s
  | .regI h now delay stack? =>
    (wrappedSetInterval (fun (_ : Unit) _ (_ : List Unit) => .ok h) now stack? s () delay []).2
  | .cancelI h => wrappedClearInterval h s

/-- Run a sequence of entry-point calls from a tracker state. -/
def run (s : Tracker) : List Event → Tracker
  | [] => s
  | e :: es => run (step s e) es

/-- The sequence contains a cancellation of timeout handle `h`. -/
def cancelsT : List Event → Nat → Bool
  | [], _ => false
  | .cancelT (some h') :: es, h => h' == h || cancelsT es h
  | _ :: es, h => cancelsT es h

/-- The sequence contains a cancellation of interval handle `h`. -/
def cancelsI : List Event → Nat → Bool
  | [], _ => false
  | .cancelI (some h') :: es, h => h' == h || cancelsI es h
  | _ :: es, h => cancelsI es h

/-- The sequence contains a registration of timeout handle `h`. -/
def registersT : List Event → Nat → Bool
  | [], _ => false
  | .regT h' _ _ _ :: es, h => h' == h || registersT es h
  | _ :: es, h => registersT es h

/-- The sequence contains a registration of interval handle `h`. -/
def registersI : List Event → Nat → Bool
  | [], _ => false
  | .regI h' _ _ _ :: es, h => h' == h || registersI es h
  | _ :: es, h => registersI es h

/-- Declarative reading of the specification for timeouts: handle `h` is
active after the sequence iff some registration of `h` is not followed by
a cancellation of `h`; its record is the one of the latest such
registration. -/
def specActiveTimeout : List Event → Nat → Option TimerInfo
  | [], _ => none
  | e :: es, h =>
    match specActiveTimeout es h with
    | some i => some i
    | none =>
      match e with
      | .regT h' now delay stack? =>
        if h' = h ∧ cancelsT es h = false then
          some ⟨now, delayOrZero delay, getStackTag stack?⟩
        else none
      | _ => none

/-- Declarative reading of the specification for intervals. -/
def specActiveInterval : List Event → Nat → Option TimerInfo
  | [], _ => none
  | e :: es, h =>
    match specActiveInterval es h with
    | some i => some i
    | none =>
      match e with
      | .regI h' now delay stack? =>
        if h' = h ∧ cancelsI es h = false then
          some ⟨now, delayOrZero delay, getStackTag stack?⟩
        else none
      | _ => none

/-! ### Association-list map lemmas -/

theorem lookupA_mapSet {κ α : Type} [DecidableEq κ] (m : List (κ × α)) (k k' : κ) (v : α) :
    lookupA (mapSet m k v) k' = if k = k' then some v else lookupA m k' := by
  induction m with
  | nil => simp [mapSet, lookupA]
  | cons p rest ih =>
    obtain ⟨a, b⟩ := p
    by_cases hak : a = k
    · subst hak
      simp only [mapSet, if_pos rfl, lookupA]
      by_cases hk : a = k'
      · subst hk; simp [lookupA]
      · simp [lookupA, hk]
    · simp only [mapSet, if_neg hak, lookupA]
      by_cases hk : a = k'
      · subst hk
        have : ¬ (k = a) := fun h => hak h.symm
        simp [lookupA, this]
      · simp [lookupA, hk, ih]

theorem lookupA_mapDelete_ne {κ α : Type} [DecidableEq κ] (m : List (κ × α)) (k k' : κ)
    (hne : k ≠ k') : lookupA (mapDelete m k) k' = lookupA m k' := by
  induction m with
  | nil => simp [mapDelete]
  | cons p rest ih =>
    obtain ⟨a, b⟩ := p
    by_cases hak : a = k
    · subst hak
      simp only [mapDelete, if_pos rfl, lookupA]
      simp [lookupA, hne]
    · simp only [mapDelete, if_neg hak, lookupA]
      by_cases hk : a = k'
      · simp [hk]
      · simp [hk, ih]

theorem lookupA_eq_none_of_not_mem_keys {κ α : Type} [DecidableEq κ]
    (m : List (κ × α)) (k : κ) (h : k ∉ m.map Prod.fst) : lookupA m k = none := by
  induction m with
  | nil => rfl
  | cons p rest ih =>
    simp only [List.map_cons, List.mem_cons, not_or] at h
    simp only [lookupA]
    rw [if_neg (fun he => h.1 he.symm)]
    exact ih h.2

theorem lookupA_mapDelete_self {κ α : Type} [DecidableEq κ] (m : List (κ × α)) (k : κ)
    (hnd : NodupKeys m) : lookupA (mapDelete m k) k = none := by
  induction m with
  | nil => rfl
  | cons p rest ih =>
    obtain ⟨a, b⟩ := p
    simp only [NodupKeys, List.map_cons, List.nodup_cons] at hnd
    by_cases hak : a = k
    · subst hak
      simp only [mapDelete, if_pos rfl]
      exact lookupA_eq_none_of_not_mem_keys rest a hnd.1
    · simp only [mapDelete, if_neg hak, lookupA]
      exact ih hnd.2

theorem mapDelete_of_lookupA_none {κ α : Type} [DecidableEq κ] (m : List (κ × α)) (k : κ)
    (h : lookupA m k = none) : mapDelete m k = m := by
  induction m with
  | nil => rfl
  | cons p rest ih =>
    obtain ⟨a, b⟩ := p
    simp only [lookupA] at h
    by_cases hak : a = k
    · rw [if_pos hak] at h; exact absurd h (by simp)
    · rw [if_neg hak] at h
      simp only [mapDelete, if_neg hak]
      rw [ih h]

theorem keys_mapDelete_sublist {κ α : Type} [DecidableEq κ] (m : List (κ × α)) (k : κ) :
    ((mapDelete m k).map Prod.fst).Sublist (m.map Prod.fst) := by
  induction m with
  | nil => simp [mapDelete]
  | cons p rest ih =>
    obtain ⟨a, b⟩ := p
    by_cases hak : a = k
    · simp only [mapDelete, if_pos hak, List.map_cons]
      exact (List.sublist_cons_self a _)
    · simp only [mapDelete, if_neg hak, List.map_cons]
      exact ih.cons₂ a

theorem nodupKeys_mapDelete {κ α : Type} [DecidableEq κ] (m : List (κ × α)) (k : κ)
    (hnd : NodupKeys m) : NodupKeys (mapDelete m k) :=
  (keys_mapDelete_sublist m k).nodup hnd

theorem keys_mapSet_subset {κ α : Type} [DecidableEq κ] (m : List (κ × α)) (k : κ) (v : α) :
    ∀ x ∈ (mapSet m k v).map Prod.fst, x ∈ m.map Prod.fst ∨ x = k := by
  induction m with
  | nil => intro x hx; simp [mapSet] at hx; right; exact hx
  | cons p rest ih =>
    obtain ⟨a, b⟩ := p
    intro x hx
    by_cases hak : a = k
    · simp only [mapSet, if_pos hak, List.map_cons, List.mem_cons] at hx ⊢
      rcases hx with h | h
      · right; exact h
      · left; right; exact h
    · simp only [mapSet, if_neg hak, List.map_cons, List.mem_cons] at hx ⊢
      rcases hx with h | h
      · left; left; exact h
      · rcases ih x h with h' | h'
        · left; right; exact h'
        · right; exact h'

theorem nodupKeys_mapSet {κ α : Type} [DecidableEq κ] (m : List (κ × α)) (k : κ) (v : α)
    (hnd : NodupKeys m) : NodupKeys (mapSet m k v) := by
  induction m with
  | nil => simp [mapSet, NodupKeys]
  | cons p rest ih =>
    obtain ⟨a, b⟩ := p
    simp only [NodupKeys, List.map_cons, List.nodup_cons] at hnd
    by_cases hak : a = k
    · subst hak
      have hset : mapSet ((a, b) :: rest) a v = (a, v) :: rest := by simp [mapSet]
      rw [hset]
      show (((a, v) :: rest).map Prod.fst).Nodup
      simp only [List.map_cons]
      exact List.nodup_cons.mpr ⟨hnd.1, hnd.2⟩
    · simp only [mapSet, if_neg hak, NodupKeys, List.map_cons, List.nodup_cons]
      refine ⟨fun hmem => ?_, ih hnd.2⟩
      rcases keys_mapSet_subset rest k v a hmem with h | h
      · exact hnd.1 h
      · exact hak h

theorem length_mapSet_of_mem {κ α : Type} [DecidableEq κ] (m : List (κ × α)) (k : κ) (v : α)
    (h : lookupA m k ≠ none) : (mapSet m k v).length = m.length := by
  induction m with
  | nil => exact absurd rfl h
  | cons p rest ih =>
    obtain ⟨a, b⟩ := p
    simp only [lookupA] at h
    by_cases hak : a = k
    · simp [mapSet, hak]
    · rw [if_neg hak] at h
      simp [mapSet, if_neg hak, ih h]

theorem lookupA_eq_some_of_mem {κ α : Type} [DecidableEq κ] (m : List (κ × α))
    (k : κ) (v : α) (hnd : NodupKeys m) (hm : (k, v) ∈ m) : lookupA m k = some v := by
  induction m with
  | nil => cases hm
  | cons p rest ih =>
    obtain ⟨a, b⟩ := p
    simp only [NodupKeys, List.map_cons, List.nodup_cons] at hnd
    rcases List.mem_cons.1 hm with h | h
    · cases h
      simp [lookupA]
    · have hak : a ≠ k := by
        intro he; subst he
        exact hnd.1 (List.mem_map.2 ⟨(a, v), h, rfl⟩)
      simp only [lookupA, if_neg hak]
      exact ih hnd.2 h

theorem mem_of_lookupA_eq_some {κ α : Type} [DecidableEq κ] (m : List (κ × α))
    (k : κ) (v : α) (h : lookupA m k = some v) : (k, v) ∈ m := by
  induction m with
  | nil => cases h
  | cons p rest ih =>
    obtain ⟨a, b⟩ := p
    simp only [lookupA] at h
    by_cases hak : a = k
    · subst hak
      rw [if_pos rfl] at h
      cases h
      exact List.mem_cons_self _ _
    · rw [if_neg hak] at h
      exact List.mem_cons_of_mem _ (ih h)

/-! ### Step equations and invariant preservation -/

theorem step_regT (s : Tracker) (h : Nat) (now : Int) (delay : Option Int)
    (stack? : Option String) :
    step s (.regT h now delay stack?) =
      { s with timeouts := mapSet s.timeouts h ⟨now, delayOrZero delay, getStackTag stack?⟩ } := rfl

theorem step_regI (s : Tracker) (h : Nat) (now : Int) (delay : Option Int)
    (stack? : Option String) :
    step s (.regI h now delay stack?) =
      { s with intervals := mapSet s.intervals h ⟨now, delayOrZero delay, getStackTag stack?⟩ } := rfl

theorem step_cancelT_none (s : Tracker) : step s (.cancelT none) = s := rfl

theorem step_cancelT_some (s : Tracker) (h : Nat) :
    step s (.cancelT (some h)) = { s with timeouts := mapDelete s.timeouts h } := rfl

theorem step_cancelI_none (s : Tracker) : step s (.cancelI none) = s := rfl

theorem step_cancelI_some (s : Tracker) (h : Nat) :
    step s (.cancelI (some h)) = { s with intervals := mapDelete s.intervals h } := rfl

theorem nodupKeys_step_timeouts (s : Tracker) (e : Event) (ht : NodupKeys s.timeouts) :
    NodupKeys (step s e).timeouts := by
  cases e with
  | regT h now delay stack? => rw [step_regT]; exact nodupKeys_mapSet _ _ _ ht
  | cancelT oh =>
    cases oh with
    | none => rw [step_cancelT_none]; exact ht
    | some h => rw [step_cancelT_some]; exact nodupKeys_mapDelete _ _ ht
  | regI h now delay stack? => rw [step_regI]; exact ht
  | cancelI oh =>
    cases oh with
    | none => rw [step_cancelI_none]; exact ht
    | some h => rw [step_cancelI_some]; exact ht

theorem nodupKeys_step_intervals (s : Tracker) (e : Event) (hi : NodupKeys s.intervals) :
    NodupKeys (step s e).intervals := by
  cases e with
  | regT h now delay stack? => rw [step_regT]; exact hi
  | cancelT oh =>
    cases oh with
    | none => rw [step_cancelT_none]; exact hi
    | some h => rw [step_cancelT_some]; exact hi
  | regI h now delay stack? => rw [step_regI]; exact nodupKeys_mapSet _ _ _ hi
  | cancelI oh =>
    cases oh with
    | none => rw [step_cancelI_none]; exact hi
    | some h => rw [step_cancelI_some]; exact nodupKeys_mapDelete _ _ hi

theorem nodupKeys_run_timeouts (es : List Event) (s : Tracker) (ht : NodupKeys s.timeouts) :
    NodupKeys (run s es).timeouts := by
  induction es generalizing s with
  | nil => exact ht
  | cons e es ih => exact ih (step s e) (nodupKeys_step_timeouts s e ht)

theorem nodupKeys_run_intervals (es : List Event) (s : Tracker) (hi : NodupKeys s.intervals) :
    NodupKeys (run s es).intervals := by
  induction es generalizing s with
  | nil => exact hi
  | cons e es ih => exact ih (step s e) (nodupKeys_step_intervals s e hi)

/-! ### The registry mirrors registered-but-not-cancelled timers -/

theorem run_lookupA_timeouts (es : List Event) (s : Tracker) (ht : NodupKeys s.timeouts)
    (h : Nat) :
    lookupA (run s es).timeouts h =
      (match specActiveTimeout es h with
       | some i => some i
       | none => if cancelsT es h then none else lookupA s.timeouts h) := by
  induction es generalizing s with
  | nil => simp [run, specActiveTimeout, cancelsT]
  | cons e es ih =>
    have hrun : run s (e :: es) = run (step s e) es := rfl
    rw [hrun, ih (step s e) (nodupKeys_step_timeouts s e ht)]
    cases e with
    | regT h' now delay stack? =>
      rw [step_regT]
      simp only [specActiveTimeout, cancelsT]
      cases hspec : specActiveTimeout es h with
      | some i => rfl
      | none =>
        simp only []
        rw [lookupA_mapSet]
        by_cases hc : cancelsT es h
        · simp only [hc]; simp
        · rw [Bool.not_eq_true] at hc
          simp only [hc]
          by_cases hh : h' = h
          · subst hh; simp
          · simp [hh]
    | cancelT oh =>
      cases oh with
      | none =>
        rw [step_cancelT_none]
        simp only [specActiveTimeout, cancelsT]
        cases hspec : specActiveTimeout es h with
        | some i => rfl
        | none => rfl
      | some h' =>
        rw [step_cancelT_some]
        simp only [specActiveTimeout, cancelsT]
        cases hspec : specActiveTimeout es h with
        | some i => rfl
        | none =>
          simp only []
          by_cases hh : h' = h
          · subst hh
            rw [lookupA_mapDelete_self _ _ ht]
            simp
          · rw [lookupA_mapDelete_ne _ _ _ hh]
            simp [hh]
    | regI h' now delay stack? =>
      rw [step_regI]
      simp only [specActiveTimeout, cancelsT]
      cases hspec : specActiveTimeout es h with
      | some i => rfl
      | none => rfl
    | cancelI oh =>
      cases oh with
      | none =>
        rw [step_cancelI_none]
        simp only [specActiveTimeout, cancelsT]
        cases hspec : specActiveTimeout es h with
        | some i => rfl
        | none => rfl
      | some h' =>
        rw [step_cancelI_some]
        simp only [specActiveTimeout, cancelsT]
        cases hspec : specActiveTimeout es h with
        | some i => rfl
        | none => rfl

theorem run_lookupA_intervals (es : List Event) (s : Tracker) (hi : NodupKeys s.intervals)
    (h : Nat) :
    lookupA (run s es).intervals h =
      (match specActiveInterval es h with
       | some i => some i
       | none => if cancelsI es h then none else lookupA s.intervals h) := by
  induction es generalizing s with
  | nil => simp [run, specActiveInterval, cancelsI]
  | cons e es ih =>
    have hrun : run s (e :: es) = run (step s e) es := rfl
    rw [hrun, ih (step s e) (nodupKeys_step_intervals s e hi)]
    cases e with
    | regI h' now delay stack? =>
      rw [step_regI]
      simp only [specActiveInterval, cancelsI]
      cases hspec : specActiveInterval es h with
      | some i => rfl
      | none =>
        simp only []
        rw [lookupA_mapSet]
        by_cases hc : cancelsI es h
        · simp only [hc]; simp
        · rw [Bool.not_eq_true] at hc
          simp only [hc]
          by_cases hh : h' = h
          · subst hh; simp
          · simp [hh]
    | cancelI oh =>
      cases oh with
      | none =>
        rw [step_cancelI_none]
        simp only [specActiveInterval, cancelsI]
        cases hspec : specActiveInterval es h with
        | some i => rfl
        | none => rfl
      | some h' =>
        rw [step_cancelI_some]
        simp only [specActiveInterval, cancelsI]
        cases hspec : specActiveInterval es h with
        | some i => rfl
        | none =>
          simp only []
          by_cases hh : h' = h
          · subst hh
            rw [lookupA_mapDelete_self _ _ hi]
            simp
          · rw [lookupA_mapDelete_ne _ _ _ hh]
            simp [hh]
    | regT h' now delay stack? =>
      rw [step_regT]
      simp only [specActiveInterval, cancelsI]
      cases hspec : specActiveInterval es h with
      | some i => rfl
      | none => rfl
    | cancelT oh =>
      cases oh with
      | none =>
        rw [step_cancelT_none]
        simp only [specActiveInterval, cancelsI]
        cases hspec : specActiveInterval es h with
        | some i => rfl
        | none => rfl
      | some h' =>
        rw [step_cancelT_some]
        simp only [specActiveInterval, cancelsI]
        cases hspec : specActiveInterval es h with
        | some i => rfl
        | none => rfl

theorem nodupKeys_nil {κ α : Type} : NodupKeys ([] : List (κ × α)) := List.nodup_nil

theorem run_init_lookupA_timeouts (es : List Event) (h : Nat) :
    lookupA (run Tracker.init es).timeouts h = specActiveTimeout es h := by
  rw [run_lookupA_timeouts es Tracker.init nodupKeys_nil h]
  cases specActiveTimeout es h with
  | some i => rfl
  | none =>
    show (if cancelsT es h then none else lookupA ([] : List (Nat × TimerInfo)) h) = none
    cases cancelsT es h <;> rfl

theorem run_init_lookupA_intervals (es : List Event) (h : Nat) :
    lookupA (run Tracker.init es).intervals h = specActiveInterval es h := by
  rw [run_lookupA_intervals es Tracker.init nodupKeys_nil h]
  cases specActiveInterval es h with
  | some i => rfl
  | none =>
    show (if cancelsI es h then none else lookupA ([] : List (Nat × TimerInfo)) h) = none
    cases cancelsI es h <;> rfl

/-- **C1.** For every sequence of calls to the wrapped registration and
cancellation entry points, `getActiveTimeouts()` holds exactly the timeout
handles registered through the wrapped `setTimeout` and not subsequently
cancelled through the wrapped `clearTimeout`, each paired with the
`TimerInfo` record of its latest surviving registration, and
`getActiveIntervals()` symmetrically for intervals: the snapshot's lookup
coincides with the declarative registered-but-not-cancelled reading, and a
handle occurs in a snapshot iff the declarative reading marks it active.
The event alphabet has no firing event — only registration and explicit
cancellation change the registry — so natural firing of a one-shot timeout
leaves its entry in place. -/
theorem claim_C1_snapshot_is_registered_not_cancelled (es : List Event) (h : Nat) :
    lookupA (getActiveTimeouts (run Tracker.init es)) h = specActiveTimeout es h
    ∧ lookupA (getActiveIntervals (run Tracker.init es)) h = specActiveInterval es h
    ∧ ((∃ i, (h, i) ∈ getActiveTimeouts (run Tracker.init es)) ↔
        (∃ i, specActiveTimeout es h = some i))
    ∧ ((∃ i, (h, i) ∈ getActiveIntervals (run Tracker.init es)) ↔
        (∃ i, specActiveInterval es h = some i)) := by
  refine ⟨run_init_lookupA_timeouts es h, run_init_lookupA_intervals es h, ?_, ?_⟩
  · constructor
    · rintro ⟨i, hi⟩
      refine ⟨i, ?_⟩
      rw [← run_init_lookupA_timeouts es h]
      exact lookupA_eq_some_of_mem _ _ _ (nodupKeys_run_timeouts es Tracker.init nodupKeys_nil) hi
    · rintro ⟨i, hi⟩
      refine ⟨i, ?_⟩
      apply mem_of_lookupA_eq_some
      show lookupA (run Tracker.init es).timeouts h = some i
      rw [run_init_lookupA_timeouts es h]
      exact hi
  · constructor
    · rintro ⟨i, hi⟩
      refine ⟨i, ?_⟩
      rw [← run_init_lookupA_intervals es h]
      exact lookupA_eq_some_of_mem _ _ _ (nodupKeys_run_intervals es Tracker.init nodupKeys_nil) hi
    · rintro ⟨i, hi⟩
      refine ⟨i, ?_⟩
      apply mem_of_lookupA_eq_some
      show lookupA (run Tracker.init es).intervals h = some i
      rw [run_init_lookupA_intervals es h]
      exact hi

theorem specActiveTimeout_eq_none_of_not_registers (es : List Event) (h : Nat)
    (hr : registersT es h = false) : specActiveTimeout es h = none := by
  induction es with
  | nil => rfl
  | cons e es ih =>
    cases e with
    | regT h' now delay stack? =>
      simp only [registersT, Bool.or_eq_false_iff] at hr
      have hne : ¬ (h' = h) := by
        intro he; rw [he] at hr; simp at hr
      simp only [specActiveTimeout, ih hr.2]
      rw [if_neg (fun hp => hne hp.1)]
    | cancelT oh =>
      have : registersT es h = false := hr
      simp only [specActiveTimeout, ih this]
    | regI h' now delay stack? =>
      have : registersT es h = false := hr
      simp only [specActiveTimeout, ih this]
    | cancelI oh =>
      have : registersT es h = false := hr
      simp only [specActiveTimeout, ih this]

theorem specActiveInterval_eq_none_of_not_registers (es : List Event) (h : Nat)
    (hr : registersI es h = false) : specActiveInterval es h = none := by
  induction es with
  | nil => rfl
  | cons e es ih =>
    cases e with
    | regI h' now delay stack? =>
      simp only [registersI, Bool.or_eq_false_iff] at hr
      have hne : ¬ (h' = h) := by
        intro he; rw [he] at hr; simp at hr
      simp only [specActiveInterval, ih hr.2]
      rw [if_neg (fun hp => hne hp.1)]
    | cancelI oh =>
      have : registersI es h = false := hr
      simp only [specActiveInterval, ih this]
    | regT h' now delay stack? =>
      have : registersI es h = false := hr
      simp only [specActiveInterval, ih this]
    | cancelT oh =>
      have : registersI es h = false := hr
      simp only [specActiveInterval, ih this]

/-- **C2.** Cancelling a timeout handle `h` through the wrapped
`clearTimeout` removes it from `tracker.timeouts`, so every later snapshot
taken before any re-registration of `h` lacks `h`; cancelling a handle
absent from the registry is a no-op that leaves the tracker unchanged, and
so is cancelling `undefined`; symmetrically for intervals.  The wrapped
cancel functions are total in the model, so no call throws. -/
theorem claim_C2_cancellation_behaviour (s : Tracker) (h : Nat) (es : List Event) :
    (NodupKeys s.timeouts → registersT es h = false →
      lookupA (getActiveTimeouts (run (wrappedClearTimeout (some h) s) es)) h = none)
    ∧ (lookupA s.timeouts h = none → wrappedClearTimeout (some h) s = s)
    ∧ wrappedClearTimeout none s = s
    ∧ (NodupKeys s.intervals → registersI es h = false →
      lookupA (getActiveIntervals (run (wrappedClearInterval (some h) s) es)) h = none)
    ∧ (lookupA s.intervals h = none → wrappedClearInterval (some h) s = s)
    ∧ wrappedClearInterval none s = s := by
  refine ⟨?_, ?_, rfl, ?_, ?_, rfl⟩
  · intro hnd hr
    have hnd' : NodupKeys (wrappedClearTimeout (some h) s).timeouts :=
      nodupKeys_mapDelete _ _ hnd
    show lookupA (run (wrappedClearTimeout (some h) s) es).timeouts h = none
    rw [run_lookupA_timeouts es _ hnd' h,
      specActiveTimeout_eq_none_of_not_registers es h hr]
    show (if cancelsT es h then none
      else lookupA (wrappedClearTimeout (some h) s).timeouts h) = none
    have : lookupA (wrappedClearTimeout (some h) s).timeouts h = none :=
      lookupA_mapDelete_self _ _ hnd
    rw [this]
    cases cancelsT es h <;> rfl
  · intro hn
    show { s with timeouts := mapDelete s.timeouts h } = s
    rw [mapDelete_of_lookupA_none _ _ hn]
  · intro hnd hr
    have hnd' : NodupKeys (wrappedClearInterval (some h) s).intervals :=
      nodupKeys_mapDelete _ _ hnd
    show lookupA (run (wrappedClearInterval (some h) s) es).intervals h = none
    rw [run_lookupA_intervals es _ hnd' h,
      specActiveInterval_eq_none_of_not_registers es h hr]
    show (if cancelsI es h then none
      else lookupA (wrappedClearInterval (some h) s).intervals h) = none
    have : lookupA (wrappedClearInterval (some h) s).intervals h = none :=
      lookupA_mapDelete_self _ _ hnd
    rw [this]
    cases cancelsI es h <;> rfl
  · intro hn
    show { s with intervals := mapDelete s.intervals h } = s
    rw [mapDelete_of_lookupA_none _ _ hn]

/-- Witness for **C2** at a concrete tracker holding timeout `1` and
interval `2`, cancelling the absent handle `3`. -/
theorem claim_C2_cancellation_behaviour_witness :
    (lookupA (getActiveTimeouts (run (wrappedClearTimeout (some 3)
        ⟨[(1, ⟨0, 5, "a"⟩)], [(2, ⟨0, 7, "b"⟩)]⟩) [])) 3 = none)
    ∧ (wrappedClearTimeout (some 3) ⟨[(1, ⟨0, 5, "a"⟩)], [(2, ⟨0, 7, "b"⟩)]⟩ =
        ⟨[(1, ⟨0, 5, "a"⟩)], [(2, ⟨0, 7, "b"⟩)]⟩)
    ∧ wrappedClearTimeout none ⟨[(1, ⟨0, 5, "a"⟩)], [(2, ⟨0, 7, "b"⟩)]⟩ =
        ⟨[(1, ⟨0, 5, "a"⟩)], [(2, ⟨0, 7, "b"⟩)]⟩
    ∧ (lookupA (getActiveIntervals (run (wrappedClearInterval (some 3)
        ⟨[(1, ⟨0, 5, "a"⟩)], [(2, ⟨0, 7, "b"⟩)]⟩) [])) 3 = none)
    ∧ (wrappedClearInterval (some 3) ⟨[(1, ⟨0, 5, "a"⟩)], [(2, ⟨0, 7, "b"⟩)]⟩ =
        ⟨[(1, ⟨0, 5, "a"⟩)], [(2, ⟨0, 7, "b"⟩)]⟩)
    ∧ wrappedClearInterval none ⟨[(1, ⟨0, 5, "a"⟩)], [(2, ⟨0, 7, "b"⟩)]⟩ =
        ⟨[(1, ⟨0, 5, "a"⟩)], [(2, ⟨0, 7, "b"⟩)]⟩ := by
  obtain ⟨p1, p2, p3, p4, p5, p6⟩ :=
    claim_C2_cancellation_behaviour ⟨[(1, ⟨0, 5, "a"⟩)], [(2, ⟨0, 7, "b"⟩)]⟩ 3 []
  exact ⟨p1 (by unfold NodupKeys; decide) (by decide), p2 (by decide), p3,
    p4 (by unfold NodupKeys; decide) (by decide), p5 (by decide), p6⟩

/-- **C3.** If the native registration call throws, the wrapped
`setTimeout` (resp. `setInterval`) propagates the exception unchanged and
inserts no record: the tracker after the call is the tracker before. -/
theorem claim_C3_native_throw_no_insert (Cb V : Type)
    (original : Cb → Option Int → List V → Except JsError Nat)
    (now : Int) (stack? : Option String) (s : Tracker) (fn : Cb)
    (delay : Option Int) (args : List V) (e : JsError) :
    (original fn delay args = .error e →
      wrappedSetTimeout original now stack? s fn delay args = (.error e, s))
    ∧ (original fn delay args = .error e →
      wrappedSetInterval original now stack? s fn delay args = (.error e, s)) := by
  constructor
  · intro he
    simp [wrappedSetTimeout, he]
  · intro he
    simp [wrappedSetInterval, he]

/-- Witness for **C3**: a native call that throws a `TypeError`. -/
theorem claim_C3_native_throw_no_insert_witness :
    wrappedSetTimeout
        (fun (_ : Unit) (_ : Option Int) (_ : List Unit) =>
          Except.error ⟨false, "TypeError", "bad args"⟩)
        0 none Tracker.init () none [] =
      (.error ⟨false, "TypeError", "bad args"⟩, Tracker.init)
    ∧ wrappedSetInterval
        (fun (_ : Unit) (_ : Option Int) (_ : List Unit) =>
          Except.error ⟨false, "TypeError", "bad args"⟩)
        0 none Tracker.init () none [] =
      (.error ⟨false, "TypeError", "bad args"⟩, Tracker.init) := by
  obtain ⟨p1, p2⟩ := claim_C3_native_throw_no_insert Unit Unit
    (fun _ _ _ => .error ⟨false, "TypeError", "bad args"⟩)
    0 none Tracker.init () none [] ⟨false, "TypeError", "bad args"⟩
  exact ⟨p1 rfl, p2 rfl⟩

/-- **C4.** When the native call returns handle `h`, the wrapped
`setTimeout` passes the callback, delay and trailing arguments through to
the original unchanged (it is applied exactly to `fn delay args`), stores
under `h` the record `{createdAt := now, delay := delay or 0,
stack := getStackTag stack?}`, and returns `h` unchanged;
`wrappedSetInterval` behaves symmetrically on `tracker.intervals`.
The last conjuncts pin the `delay || 0` normalisation. -/
theorem claim_C4_registration_inserts_record (Cb V : Type)
    (original : Cb → Option Int → List V → Except JsError Nat)
    (now : Int) (stack? : Option String) (s : Tracker) (fn : Cb)
    (delay : Option Int) (args : List V) (h : Nat) :
    (original fn delay args = .ok h →
      wrappedSetTimeout original now stack? s fn delay args =
        (.ok h, { s with timeouts := mapSet s.timeouts h ⟨now, delayOrZero delay, getStackTag stack?⟩ }))
    ∧ (original fn delay args = .ok h →
      wrappedSetInterval original now stack? s fn delay args =
        (.ok h, { s with intervals := mapSet s.intervals h ⟨now, delayOrZero delay, getStackTag stack?⟩ }))
    ∧ delayOrZero none = 0 ∧ (∀ d : Int, delayOrZero (some d) = d) := by
  refine ⟨?_, ?_, rfl, fun d => rfl⟩
  · intro he
    simp [wrappedSetTimeout, he]
  · intro he
    simp [wrappedSetInterval, he]

/-- Witness for **C4**: registering with handle `7`, delay `250`, a stack
whose fourth line is the caller frame. -/
theorem claim_C4_registration_inserts_record_witness :
    wrappedSetTimeout (fun (_ : Unit) (_ : Option Int) (_ : List Unit) => Except.ok 7)
        1000 (some "Error\n  at getStackTag\n  at wrapped\n  at caller (app.js:3:1)")
        Tracker.init () (some 250) [] =
      (.ok 7, ⟨[(7, ⟨1000, 250, "at caller (app.js:3:1)"⟩)], []⟩)
    ∧ wrappedSetInterval (fun (_ : Unit) (_ : Option Int) (_ : List Unit) => Except.ok 7)
        1000 (some "Error\n  at getStackTag\n  at wrapped\n  at caller (app.js:3:1)")
        Tracker.init () (some 250) [] =
      (.ok 7, ⟨[], [(7, ⟨1000, 250, "at caller (app.js:3:1)"⟩)]⟩) := by
  obtain ⟨p1, p2, _, _⟩ := claim_C4_registration_inserts_record Unit Unit
    (fun _ _ _ => .ok 7) 1000
    (some "Error\n  at getStackTag\n  at wrapped\n  at caller (app.js:3:1)")
    Tracker.init () (some 250) [] 7
  constructor
  · rw [p1 rfl]
    rfl
  · rw [p2 rfl]
    rfl

/-- **C10.** When the host returns a handle already present in the
registry, `Map.set` overwrites the existing record in place: the registry
size does not grow, the handle maps to the record of the most recent
registration, and key uniqueness is preserved; symmetrically for
intervals. -/
theorem claim_C10_handle_reuse_overwrites (Cb V : Type)
    (original : Cb → Option Int → List V → Except JsError Nat)
    (now : Int) (stack? : Option String) (s : Tracker) (fn : Cb)
    (delay : Option Int) (args : List V) (h : Nat) :
    (original fn delay args = .ok h → lookupA s.timeouts h ≠ none →
      ((wrappedSetTimeout original now stack? s fn delay args).2.timeouts.length =
          s.timeouts.length
        ∧ lookupA (wrappedSetTimeout original now stack? s fn delay args).2.timeouts h =
          some ⟨now, delayOrZero delay, getStackTag stack?⟩
        ∧ (NodupKeys s.timeouts →
          NodupKeys (wrappedSetTimeout original now stack? s fn delay args).2.timeouts)))
    ∧ (original fn delay args = .ok h → lookupA s.intervals h ≠ none →
      ((wrappedSetInterval original now stack? s fn delay args).2.intervals.length =
          s.intervals.length
        ∧ lookupA (wrappedSetInterval original now stack? s fn delay args).2.intervals h =
          some ⟨now, delayOrZero delay, getStackTag stack?⟩
        ∧ (NodupKeys s.intervals →
          NodupKeys (wrappedSetInterval original now stack? s fn delay args).2.intervals))) := by
  constructor
  · intro he hmem
    have hw : (wrappedSetTimeout original now stack? s fn delay args).2.timeouts =
        mapSet s.timeouts h ⟨now, delayOrZero delay, getStackTag stack?⟩ := by
      simp [wrappedSetTimeout, he]
    rw [hw]
    refine ⟨length_mapSet_of_mem _ _ _ hmem, ?_, fun hnd => nodupKeys_mapSet _ _ _ hnd⟩
    rw [lookupA_mapSet]
    simp
  · intro he hmem
    have hw : (wrappedSetInterval original now stack? s fn delay args).2.intervals =
        mapSet s.intervals h ⟨now, delayOrZero delay, getStackTag stack?⟩ := by
      simp [wrappedSetInterval, he]
    rw [hw]
    refine ⟨length_mapSet_of_mem _ _ _ hmem, ?_, fun hnd => nodupKeys_mapSet _ _ _ hnd⟩
    rw [lookupA_mapSet]
    simp

/-- Witness for **C10**: re-registering handle `1`, which both registries
already hold. -/
theorem claim_C10_handle_reuse_overwrites_witness :
    ((wrappedSetTimeout (fun (_ : Unit) (_ : Option Int) (_ : List Unit) => Except.ok 1)
        9 none ⟨[(1, ⟨0, 5, "a"⟩)], [(1, ⟨0, 7, "b"⟩)]⟩ () none []).2.timeouts.length = 1
      ∧ lookupA (wrappedSetTimeout (fun (_ : Unit) (_ : Option Int) (_ : List Unit) => Except.ok 1)
        9 none ⟨[(1, ⟨0, 5, "a"⟩)], [(1, ⟨0, 7, "b"⟩)]⟩ () none []).2.timeouts 1 =
        some ⟨9, 0, "unknown"⟩)
    ∧ ((wrappedSetInterval (fun (_ : Unit) (_ : Option Int) (_ : List Unit) => Except.ok 1)
        9 none ⟨[(1, ⟨0, 5, "a"⟩)], [(1, ⟨0, 7, "b"⟩)]⟩ () none []).2.intervals.length = 1
      ∧ lookupA (wrappedSetInterval (fun (_ : Unit) (_ : Option Int) (_ : List Unit) => Except.ok 1)
        9 none ⟨[(1, ⟨0, 5, "a"⟩)], [(1, ⟨0, 7, "b"⟩)]⟩ () none []).2.intervals 1 =
        some ⟨9, 0, "unknown"⟩) := by
  obtain ⟨p1, p2⟩ := claim_C10_handle_reuse_overwrites Unit Unit
    (fun _ _ _ => .ok 1) 9 none ⟨[(1, ⟨0, 5, "a"⟩)], [(1, ⟨0, 7, "b"⟩)]⟩ () none [] 1
  obtain ⟨q1, q2, _⟩ := p1 rfl (by decide)
  obtain ⟨r1, r2, _⟩ := p2 rfl (by decide)
  exact ⟨⟨q1, q2⟩, ⟨r1, r2⟩⟩

/-! ### Origin tagging (C8) -/

/-- The frame at the fixed depth offset 3 of the captured stack text
(skipping the `Error` line, the tagger frame and the wrapper frame), as
the specification describes it. -/
def stackFrameAt (stack? : Option String) : Option String :=
  match stack? with
  | some s => (jsSplitNewline s)[3]?
  | none => none

theorem getStackTag_some (s : String) :
    getStackTag (some s) =
      (match (jsSplitNewline s)[3]? with
       | some frame => if jsTrim frame = "" then "unknown" else jsTrim frame
       | none => "unknown") := rfl

/-- Counterexample to **C8** as stated: when the frame at the fixed
offset exists but trims to the empty string (a whitespace-only line), the
code yields `"unknown"`, not the trimmed frame text, because
`stack[3]?.trim() || 'unknown'` treats the empty string as falsy. -/
theorem claim_C8_counterexample :
    stackFrameAt (some "Error\nat a\nat b\n \nat c") = some " "
    ∧ getStackTag (some "Error\nat a\nat b\n \nat c") ≠ jsTrim " " := by
  constructor
  · decide
  · decide

/-- **C8 (amended).** The origin tag is computed deterministically from
the synchronously captured stack text: it is the trimmed text of the
frame at the fixed depth offset 3 whenever that trimmed text is nonempty;
it is the literal `"unknown"` whenever the frame is absent (including
when stack introspection is unavailable) or its trimmed text is empty. -/
theorem claim_C8_origin_tag (stack? : Option String) :
    (∀ fr, stackFrameAt stack? = some fr → jsTrim fr ≠ "" → getStackTag stack? = jsTrim fr)
    ∧ (∀ fr, stackFrameAt stack? = some fr → jsTrim fr = "" → getStackTag stack? = "unknown")
    ∧ (stackFrameAt stack? = none → getStackTag stack? = "unknown")
    ∧ getStackTag none = "unknown" := by
  refine ⟨?_, ?_, ?_, rfl⟩
  · intro fr hfr hne
    cases stack? with
    | none => cases hfr
    | some s =>
      have hfr' : (jsSplitNewline s)[3]? = some fr := hfr
      rw [getStackTag_some, hfr']
      simp [hne]
  · intro fr hfr he
    cases stack? with
    | none => cases hfr
    | some s =>
      have hfr' : (jsSplitNewline s)[3]? = some fr := hfr
      rw [getStackTag_some, hfr']
      simp [he]
  · intro hn
    cases stack? with
    | none => rfl
    | some s =>
      have hn' : (jsSplitNewline s)[3]? = none := hn
      rw [getStackTag_some, hn']

/-- Witness for the amended **C8** at the three frame shapes: a normal
caller frame, a whitespace-only frame, and a too-short stack. -/
theorem claim_C8_origin_tag_witness :
    getStackTag (some "Error\nat a\nat b\n   at caller (x:1)") = "at caller (x:1)"
    ∧ getStackTag (some "Error\nat a\nat b\n ") = "unknown"
    ∧ getStackTag (some "Error") = "unknown"
    ∧ getStackTag none = "unknown" := by
  obtain ⟨p1, _, _, p4⟩ := claim_C8_origin_tag (some "Error\nat a\nat b\n   at caller (x:1)")
  obtain ⟨_, q2, _, _⟩ := claim_C8_origin_tag (some "Error\nat a\nat b\n ")
  obtain ⟨_, _, r3, _⟩ := claim_C8_origin_tag (some "Error")
  exact ⟨p1 "   at caller (x:1)" (by decide) (by decide),
    q2 " " (by decide) (by decide), r3 (by decide), p4⟩

/-!
### Time formatting

`report()` renders ages with `((now - createdAt) / 1000).toFixed(1)`;
`copyReportToClipboard()` additionally renders `createdAt` with
`new Date(...).toISOString()`.  `toFixed` and `toISOString` are host
(ECMAScript) functions; they are modelled here from the ECMA-262
specification: `toFixed(1)` renders the sign, then the multiple of one
tenth nearest to the magnitude (ties towards the larger multiple), and
`toISOString` renders the proleptic Gregorian date in the
`YYYY-MM-DDTHH:mm:ss.sssZ` layout.  `toISOString` is modelled for
timestamps from 1970-01-01 up to year 9999 (`Date.now()` values lie well
inside); outside that range the host throws or switches to the
expanded-year layout.  The exact-rational rounding in `toFixed1Sec`
ignores the sub-tenth error of the intermediate double division.
-/

/-- `(ms / 1000).toFixed(1)` for an integer count of milliseconds. -/
def toFixed1Sec (ms : Int) : String :=
  let t := (ms.natAbs + 50) / 100
  (if ms < 0 then "-" else "") ++ Nat.repr (t / 10) ++ "." ++ Nat.repr (t % 10)

/-- Zero-pad the decimal rendering of `n` to width `w`. -/
def padZero (w n : Nat) : String :=
  String.mk (List.replicate (w - (Nat.repr n).length) (Char.ofNat 48)) ++ Nat.repr n

/-- Day number since 1970-01-01 to proleptic Gregorian (year, month,
day), the standard civil-from-days computation ECMAScript's `Date`
performs. -/
def civilFromDays (z : Nat) : Nat × Nat × Nat :=
  let zz := z + 719468
  let era := zz / 146097
  let doe := zz % 146097
  let yoe := (doe - doe / 1460 + doe / 36524 - doe / 146096) / 365
  let doy := doe - (365 * yoe + yoe / 4 - yoe / 100)
  let mp := (5 * doy + 2) / 153
  let d := doy - (153 * mp + 2) / 5 + 1
  let m := if mp < 10 then mp + 3 else mp - 9
  let y := yoe + era * 400 + (if m ≤ 2 then 1 else 0)
  (y, m, d)

/-- `new Date(ms).toISOString()` for `0 ≤ ms` below year 10000. -/
def toISOString (ms : Int) : String :=
  let msN := ms.toNat
  let days := msN / 86400000
  let rem := msN % 86400000
  let ymd := civilFromDays days
  padZero 4 ymd.1 ++ "-" ++ padZero 2 ymd.2.1 ++ "-" ++ padZero 2 ymd.2.2 ++ "T"
    ++ padZero 2 (rem / 3600000) ++ ":" ++ padZero 2 (rem / 60000 % 60) ++ ":"
    ++ padZero 2 (rem / 1000 % 60) ++ "." ++ padZero 3 (rem % 1000) ++ "Z"

/-! ### Range of the civil decomposition -/

set_option maxHeartbeats 4000000 in
theorem civil_AB (doe q g i t yoe u v : Int)
    (h0 : 0 ≤ doe) (hdoe : doe ≤ 146096)
    (hq1 : 1460 * q ≤ doe) (hq2 : doe < 1460 * (q + 1))
    (hg1 : 36524 * g ≤ doe) (hg2 : doe < 36524 * (g + 1))
    (hi1 : 146096 * i ≤ doe) (hi2 : doe < 146096 * (i + 1))
    (ht : t = doe - q + g - i)
    (hy1 : 365 * yoe ≤ t) (hy2 : t < 365 * (yoe + 1))
    (hu1 : 4 * u ≤ yoe) (hu2 : yoe < 4 * (u + 1))
    (hv1 : 100 * v ≤ yoe) (hv2 : yoe < 100 * (v + 1)) :
    365 * yoe + u - v ≤ doe ∧ doe - (365 * yoe + u - v) ≤ 365 := by
  have hy : 0 ≤ yoe ∧ yoe ≤ 399 := by omega
  obtain ⟨hy0, hy399⟩ := hy
  interval_cases yoe <;> omega

theorem AB_nat (doe q g i t yoe u v : Nat)
    (hdoeB : doe ≤ 146096)
    (hq : q = doe / 1460) (hg : g = doe / 36524) (hi : i = doe / 146096)
    (ht : t = doe - q + g - i)
    (hyoe : yoe = t / 365)
    (hu : u = yoe / 4) (hv : v = yoe / 100) :
    365 * yoe + u - v ≤ doe ∧ doe - (365 * yoe + u - v) ≤ 365 := by
  have h := civil_AB (doe : Int) (q : Int) (g : Int) (i : Int) (t : Int) (yoe : Int)
    (u : Int) (v : Int) (by omega) (by omega) (by omega) (by omega) (by omega) (by omega)
    (by omega) (by omega) (by omega) (by omega) (by omega) (by omega) (by omega)
    (by omega) (by omega)
  omega

theorem yoe_le (doe q g i t yoe : Nat)
    (hdoeB : doe ≤ 146096)
    (hq : q = doe / 1460) (hg : g = doe / 36524) (hi : i = doe / 146096)
    (ht : t = doe - q + g - i)
    (hyoe : yoe = t / 365) : yoe ≤ 399 := by
  omega

theorem mdy_bounds (doy mp w d m : Nat)
    (hdoyB : doy ≤ 365)
    (hmp : mp = (5 * doy + 2) / 153) (hw : w = (153 * mp + 2) / 5)
    (hd : d = doy - w + 1)
    (hm : m = if mp < 10 then mp + 3 else mp - 9) :
    1 ≤ m ∧ m ≤ 12 ∧ 1 ≤ d ∧ d ≤ 31 ∧ (m ≤ 2 → 306 ≤ doy) := by
  by_cases hmp10 : mp < 10
  · rw [if_pos hmp10] at hm
    omega
  · rw [if_neg hmp10] at hm
    omega

theorem y_bound (z zz era doe yoe u v doy m y : Nat)
    (hz : z ≤ 2932896) (hzz : zz = z + 719468)
    (hera : era = zz / 146097) (hdoe : doe = zz % 146097)
    (hyoeb : yoe ≤ 399) (hu : u = yoe / 4) (hv : v = yoe / 100)
    (hA : 365 * yoe + u - v ≤ doe)
    (hdoy : doy = doe - (365 * yoe + u - v))
    (hm2 : m ≤ 2 → 306 ≤ doy)
    (hy : y = yoe + era * 400 + (if m ≤ 2 then 1 else 0)) : y ≤ 9999 := by
  by_cases hm : m ≤ 2
  · rw [if_pos hm] at hy
    have h306 := hm2 hm
    omega
  · rw [if_neg hm] at hy
    omega

/-- Within the supported range (day numbers up to 9999-12-31) the civil
decomposition yields a valid Gregorian date with a four-digit year. -/
theorem civilFromDays_bounds (z : Nat) (hz : z ≤ 2932896) :
    1 ≤ (civilFromDays z).2.1 ∧ (civilFromDays z).2.1 ≤ 12
    ∧ 1 ≤ (civilFromDays z).2.2 ∧ (civilFromDays z).2.2 ≤ 31
    ∧ (civilFromDays z).1 ≤ 9999 := by
  set doe := (z + 719468) % 146097 with hdoe
  have hdoeB : doe ≤ 146096 := by omega
  set q := doe / 1460 with hq
  set g := doe / 36524 with hg
  set i := doe / 146096 with hi
  set t := doe - q + g - i with ht
  set yoe := t / 365 with hyoe
  set u := yoe / 4 with hu
  set v := yoe / 100 with hv
  set doy := doe - (365 * yoe + u - v) with hdoy
  set mp := (5 * doy + 2) / 153 with hmp
  set w := (153 * mp + 2) / 5 with hw
  set d := doy - w + 1 with hd
  set m := (if mp < 10 then mp + 3 else mp - 9) with hm
  set era := (z + 719468) / 146097 with hera
  set y := yoe + era * 400 + (if m ≤ 2 then 1 else 0) with hy
  have hcd : civilFromDays z = (y, m, d) := rfl
  rw [hcd]
  have hAB := AB_nat doe q g i t yoe u v hdoeB hq hg hi ht hyoe hu hv
  have hdoyB : doy ≤ 365 := by rw [hdoy]; exact hAB.2
  have hmdy := mdy_bounds doy mp w d m hdoyB hmp hw hd hm
  have hyoeb := yoe_le doe q g i t yoe hdoeB hq hg hi ht hyoe
  have hyB := y_bound z (z + 719468) era doe yoe u v doy m y hz rfl hera hdoe
    hyoeb hu hv hAB.1 hdoy hmdy.2.2.2.2 hy
  exact ⟨hmdy.1, hmdy.2.1, hmdy.2.2.1, hmdy.2.2.2.1, hyB⟩

/-- The ISO-8601 `YYYY-MM-DDTHH:mm:ss.sssZ` layout: every numeric field
zero-padded to its width and within its range. -/
def isISO8601 (s : String) : Prop :=
  ∃ y mo d hh mi ss ms : Nat,
    y ≤ 9999 ∧ 1 ≤ mo ∧ mo ≤ 12 ∧ 1 ≤ d ∧ d ≤ 31
    ∧ hh ≤ 23 ∧ mi ≤ 59 ∧ ss ≤ 59 ∧ ms ≤ 999
    ∧ s = padZero 4 y ++ "-" ++ padZero 2 mo ++ "-" ++ padZero 2 d ++ "T"
        ++ padZero 2 hh ++ ":" ++ padZero 2 mi ++ ":" ++ padZero 2 ss ++ "."
        ++ padZero 3 ms ++ "Z"

/-- A decimal string with exactly one fractional digit and an optional
leading minus sign. -/
def isDecimal1 (s : String) : Prop :=
  ∃ (sgn : String) (a b : Nat),
    (sgn = "" ∨ sgn = "-") ∧ b ≤ 9 ∧ s = sgn ++ Nat.repr a ++ "." ++ Nat.repr b

theorem toISOString_isISO8601 (ms : Int) (h0 : 0 ≤ ms) (h1 : ms < 253402300800000) :
    isISO8601 (toISOString ms) := by
  have hdays : ms.toNat / 86400000 ≤ 2932896 := by omega
  have hb := civilFromDays_bounds (ms.toNat / 86400000) hdays
  have hrem : ms.toNat % 86400000 < 86400000 := Nat.mod_lt _ (by omega)
  refine ⟨(civilFromDays (ms.toNat / 86400000)).1, (civilFromDays (ms.toNat / 86400000)).2.1,
    (civilFromDays (ms.toNat / 86400000)).2.2,
    ms.toNat % 86400000 / 3600000, ms.toNat % 86400000 / 60000 % 60,
    ms.toNat % 86400000 / 1000 % 60, ms.toNat % 86400000 % 1000,
    hb.2.2.2.2, hb.1, hb.2.1, hb.2.2.1, hb.2.2.2.1, ?_, ?_, ?_, ?_, rfl⟩
  · omega
  · omega
  · omega
  · omega

theorem toFixed1Sec_isDecimal1 (ms : Int) : isDecimal1 (toFixed1Sec ms) := by
  by_cases hneg : ms < 0
  · refine ⟨"-", (ms.natAbs + 50) / 100 / 10, (ms.natAbs + 50) / 100 % 10,
      Or.inr rfl, ?_, ?_⟩
    · omega
    · show toFixed1Sec ms = _
      unfold toFixed1Sec
      rw [if_pos hneg]
  · refine ⟨"", (ms.natAbs + 50) / 100 / 10, (ms.natAbs + 50) / 100 % 10,
      Or.inl rfl, ?_, ?_⟩
    · omega
    · show toFixed1Sec ms = _
      unfold toFixed1Sec
      rw [if_neg hneg]

/-!
### The reporting facade

`report()` and `copyReportToClipboard()` are pure reads of the tracker;
each model returns its result together with the tracker state after the
call.  `copyReportToClipboard()` additionally depends on the host
clipboard environment: `navigator.clipboard` may be absent (insecure
browsing context), in which case the `writeText` property access throws
a synchronous `TypeError`, modelled as an `Except.error` result.
`locale` models the host's `toLocaleTimeString`.
-/

/-- One console-table row of `report()`. -/
structure ReportRow where
  id : Nat
  delay : Int
  created : String
  age : String
  origin : String
  deriving Repr, DecidableEq

/-- One row of the duplicate-origins table of `report()`. -/
structure DupRow where
  origin : String
  count : Nat
  ids : String
  deriving Repr, DecidableEq

/-- One step of the `originMap` accumulation of `report()`: a missing
origin key is created as `{count: 0, ids: []}`, then `count += 1` and
`ids.push(id)`; net effect `(1, [id])` on a fresh key. -/
def addOrigin (m : List (String × Nat × List Nat)) (p : Nat × TimerInfo) :
    List (String × Nat × List Nat) :=
  match lookupA m p.2.stack with
  | some ci => mapSet m p.2.stack (ci.1 + 1, ci.2 ++ [p.1])
  | none => mapSet m p.2.stack (1, [p.1])

/-- The `originMap` object of `report()` over the concatenated timeout
and interval entries.  The model keeps insertion order; for the
non-integer-like string keys an origin tag is, JavaScript object
iteration order is insertion order, and nothing below depends on the
order anyway. -/
def originMapOf (entries : List (Nat × TimerInfo)) : List (String × Nat × List Nat) :=
  entries.foldl addOrigin []

/-- The `duplicates` rows of `report()`: origin groups with
`count > 1`, ids joined by `', '`. -/
def duplicatesOf (entries : List (Nat × TimerInfo)) : List DupRow :=
  ((originMapOf entries).filter fun p => 1 < p.2.1).map fun p =>
    ⟨p.1, p.2.1, String.intercalate ", " (p.2.2.map Nat.repr)⟩

/-- One timer row of a `report()` table. -/
def reportRow (now : Int) (locale : Int → String) (p : Nat × TimerInfo) : ReportRow :=
  ⟨p.1, p.2.delay, locale p.2.createdAt, toFixed1Sec (now - p.2.createdAt) ++ "s", p.2.stack⟩

/-- The grouped console output of `report()`: header time, the
no-active-timers notice flag, the two tables, the duplicates table. -/
structure ReportOutput where
  header : String
  noActive : Bool
  timeoutRows : List ReportRow
  intervalRows : List ReportRow
  duplicates : List DupRow
  deriving Repr, DecidableEq

/-- `TIMER_TRACKER.report()`: renders the registries; the function body
only reads `tracker`, so the tracker after the call is returned
unchanged. -/
def report (now : Int) (locale : Int → String) (s : Tracker) : ReportOutput × Tracker :=
  let timeouts := getActiveTimeouts s
  let intervals := getActiveIntervals s
  (⟨locale now, timeouts.isEmpty && intervals.isEmpty,
    timeouts.map (reportRow now locale), intervals.map (reportRow now locale),
    duplicatesOf (timeouts ++ intervals)⟩, s)

/-- A JSON snapshot entry of `copyReportToClipboard()`. -/
structure SnapshotEntry where
  id : Nat
  delay : Int
  created : String
  ageSeconds : String
  origin : String
  deriving Repr, DecidableEq

/-- One registry entry rendered for the JSON snapshot. -/
def snapshotEntry (now : Int) (p : Nat × TimerInfo) : SnapshotEntry :=
  ⟨p.1, p.2.delay, toISOString p.2.createdAt, toFixed1Sec (now - p.2.createdAt), p.2.stack⟩

/-- The `data` object serialized by `copyReportToClipboard()`. -/
structure SnapshotData where
  time : String
  timeouts : List SnapshotEntry
  intervals : List SnapshotEntry
  deriving Repr, DecidableEq

/-- Settlement of the `navigator.clipboard.writeText` promise, when the
Clipboard API is present. -/
inductive ClipboardResult where
  | resolved
  | rejected (err : JsError)
  deriving Repr, DecidableEq

/-- The host clipboard environment.  `navigator.clipboard` is undefined
in an insecure browsing context — reachable, since the shim activates in
any browser window whose build mode is non-production, secure or not —
and otherwise the `writeText` promise settles with a
`ClipboardResult`. -/
inductive Clipboard where
  | absent
  | present (write : ClipboardResult)
  deriving Repr, DecidableEq

/-- A console notice (`console.info` / `console.warn`). -/
inductive ConsoleNotice where
  | info (msg : String)
  | warn (msg : String)
  deriving Repr, DecidableEq

/-- The `TypeError` raised by the property access
`navigator.clipboard.writeText` when `navigator.clipboard` is
`undefined`; the message text is host-dependent (V8 wording shown). -/
def undefinedWriteTextError : JsError :=
  ⟨false, "TypeError", "Cannot read properties of undefined (reading 'writeText')"⟩

/-- The `.then`/`.catch` continuations of `copyReportToClipboard()`: a
success notice on resolution; on rejection the clipboard-denied warning
when the error is a `DOMException` named `NotAllowedError`, otherwise the
generic warning carrying the error. -/
def clipboardNotice : ClipboardResult → ConsoleNotice
  | .resolved => .info "📋 Timer report copied to clipboard!"
  | .rejected err =>
    if err.isDOMException = true ∧ err.name = "NotAllowedError" then
      .warn "📋 Copy failed: Clipboard access denied. Use the \"📋 Copy Timer Report\" button or call this from a user click."
    else
      .warn ("❌ Failed to copy timer report: " ++ err.message)

/-- The `data` object `copyReportToClipboard()` builds before it touches
the clipboard. -/
def snapshotData (now : Int) (locale : Int → String) (s : Tracker) : SnapshotData :=
  ⟨locale now, s.timeouts.map (snapshotEntry now), s.intervals.map (snapshotEntry now)⟩

/-- `TIMER_TRACKER.copyReportToClipboard()`: synchronously builds the
snapshot (a pure read of the registries), then evaluates
`navigator.clipboard.writeText(JSON.stringify(data, null, 2))`.  When the
Clipboard API is absent, that property access throws a synchronous
`TypeError` which propagates to the caller — the `.then`/`.catch`
handlers are attached to a promise that never exists, so nothing absorbs
it.  When the API is present, the settlement of the promise is absorbed
into a console notice.  The registries are untouched on every path. -/
def copyReportToClipboard (now : Int) (locale : Int → String) (s : Tracker)
    (clipboard : Clipboard) : Except JsError (SnapshotData × ConsoleNotice) × Tracker :=
  let data := snapshotData now locale s
  match clipboard with
  | .absent => (.error undefinedWriteTextError, s)
  | .present write => (.ok (data, clipboardNotice write), s)

/-- `TIMER_TRACKER.getActiveTimeouts` with the tracker threaded. -/
def getActiveTimeoutsRun (s : Tracker) : List (Nat × TimerInfo) × Tracker :=
  (getActiveTimeouts s, s)

/-- `TIMER_TRACKER.getActiveIntervals` with the tracker threaded. -/
def getActiveIntervalsRun (s : Tracker) : List (Nat × TimerInfo) × Tracker :=
  (getActiveIntervals s, s)

/-- **C6.** The snapshot serialized by `copyReportToClipboard()` has
`timeouts` and `intervals` arrays exactly as long as the registries at
call time, and every entry carries the five fields: `id` and `origin`
copied from the registry entry, `delay` from the record, `created` an
ISO-8601 timestamp of `createdAt` (for any `Date.now()`-representable
creation time up to year 9999), and `ageSeconds` a decimal string with
one fractional digit. -/
theorem claim_C6_snapshot_shape (now : Int) (locale : Int → String) (s : Tracker)
    (write : ClipboardResult) :
    (copyReportToClipboard now locale s (.present write)).1 =
      .ok (snapshotData now locale s, clipboardNotice write)
    ∧ (snapshotData now locale s).timeouts.length = s.timeouts.length
    ∧ (snapshotData now locale s).intervals.length = s.intervals.length
    ∧ (∀ p ∈ s.timeouts ++ s.intervals,
        (snapshotEntry now p).id = p.1
        ∧ (snapshotEntry now p).delay = p.2.delay
        ∧ (snapshotEntry now p).origin = p.2.stack
        ∧ (0 ≤ p.2.createdAt → p.2.createdAt < 253402300800000 →
            isISO8601 (snapshotEntry now p).created)
        ∧ isDecimal1 (snapshotEntry now p).ageSeconds) := by
  refine ⟨rfl, List.length_map _ _, List.length_map _ _, ?_⟩
  intro p _
  exact ⟨rfl, rfl, rfl,
    fun h0 h1 => toISOString_isISO8601 p.2.createdAt h0 h1,
    toFixed1Sec_isDecimal1 (now - p.2.createdAt)⟩

/-- Witness for **C6**: a tracker with one timeout (created at epoch
millisecond 1000) and one interval (created at 1500), snapshotted at
2000. -/
theorem claim_C6_snapshot_shape_witness :
    (copyReportToClipboard 2000 (fun _ => "time")
        ⟨[(1, ⟨1000, 5, "a"⟩)], [(2, ⟨1500, 7, "b"⟩)]⟩ (.present .resolved)).1 =
      .ok (snapshotData 2000 (fun _ => "time") ⟨[(1, ⟨1000, 5, "a"⟩)], [(2, ⟨1500, 7, "b"⟩)]⟩,
        .info "📋 Timer report copied to clipboard!")
    ∧ (snapshotData 2000 (fun _ => "time")
        ⟨[(1, ⟨1000, 5, "a"⟩)], [(2, ⟨1500, 7, "b"⟩)]⟩).timeouts.length = 1
    ∧ (snapshotData 2000 (fun _ => "time")
        ⟨[(1, ⟨1000, 5, "a"⟩)], [(2, ⟨1500, 7, "b"⟩)]⟩).intervals.length = 1
    ∧ isISO8601 (snapshotEntry 2000 (1, ⟨1000, 5, "a"⟩)).created
    ∧ isDecimal1 (snapshotEntry 2000 (1, ⟨1000, 5, "a"⟩)).ageSeconds
    ∧ (snapshotEntry 2000 (1, ⟨1000, 5, "a"⟩)).id = 1
    ∧ (snapshotEntry 2000 (1, ⟨1000, 5, "a"⟩)).delay = 5
    ∧ (snapshotEntry 2000 (1, ⟨1000, 5, "a"⟩)).origin = "a" := by
  obtain ⟨h0, h1, h2, h3⟩ := claim_C6_snapshot_shape 2000 (fun _ => "time")
    ⟨[(1, ⟨1000, 5, "a"⟩)], [(2, ⟨1500, 7, "b"⟩)]⟩ .resolved
  obtain ⟨e1, e2, e3, e4, e5⟩ := h3 (1, ⟨1000, 5, "a"⟩) (by decide)
  exact ⟨h0, h1, h2, e4 (by decide) (by decide), e5, e1, e2, e3⟩

/-- **C7** fails on the code.  The shim activates in any browser window
whose build mode is non-production, secure context or not; in an
insecure browsing context `navigator.clipboard` is `undefined`, so the
property access `navigator.clipboard.writeText` raises a synchronous
`TypeError` that propagates to the caller of `copyReportToClipboard()` —
the `.catch` handler only absorbs promise rejections and never runs.
The claim holds on the clipboard-present environments: there every
settlement of the write is absorbed into a console notice and nothing is
thrown. -/
theorem claim_C7_sync_throw_when_clipboard_absent (now : Int) (locale : Int → String)
    (s : Tracker) (err : JsError) :
    (copyReportToClipboard now locale s .absent).1 = .error undefinedWriteTextError
    ∧ undefinedWriteTextError.isDOMException = false
    ∧ undefinedWriteTextError.name = "TypeError"
    ∧ (copyReportToClipboard now locale s .absent).2 = s
    ∧ (copyReportToClipboard now locale s (.present .resolved)).1 =
        .ok (snapshotData now locale s, .info "📋 Timer report copied to clipboard!")
    ∧ (copyReportToClipboard now locale s (.present (.rejected err))).1 =
        .ok (snapshotData now locale s, clipboardNotice (.rejected err)) :=
  ⟨rfl, rfl, rfl, rfl, rfl, rfl⟩

/-- **C9.** None of the four facade operations mutates the registries:
each state-threaded model returns the tracker it was given, keys,
records and insertion order included — `copyReportToClipboard` in every
clipboard environment, the throwing one included, since the throw
happens after its pure reads. -/
theorem claim_C9_facade_reads_only (s : Tracker) (now : Int) (locale : Int → String)
    (clipboard : Clipboard) :
    (getActiveTimeoutsRun s).2 = s
    ∧ (getActiveIntervalsRun s).2 = s
    ∧ (report now locale s).2 = s
    ∧ (copyReportToClipboard now locale s clipboard).2 = s := by
  refine ⟨rfl, rfl, rfl, ?_⟩
  cases clipboard with
  | absent => rfl
  | present write => rfl

/-! ### The duplicate-origins computation -/

/-- Effect on one origin key of folding a batch of entries into an
origin map: the occurrences of that origin are counted and their handles
appended. -/
def originCombine (base : Option (Nat × List Nat)) (l : List (Nat × TimerInfo)) :
    Option (Nat × List Nat) :=
  match base, l with
  | some ci, l => some (ci.1 + l.length, ci.2 ++ l.map Prod.fst)
  | none, [] => none
  | none, l => some (l.length, l.map Prod.fst)

theorem lookupA_foldl_addOrigin (entries : List (Nat × TimerInfo))
    (m : List (String × Nat × List Nat)) (o : String) :
    lookupA (entries.foldl addOrigin m) o =
      originCombine (lookupA m o) (entries.filter fun p => p.2.stack = o) := by
  induction entries generalizing m with
  | nil =>
    show lookupA m o = originCombine (lookupA m o) []
    cases lookupA m o with
    | none => rfl
    | some ci => simp [originCombine]
  | cons p rest ih =>
    have hfold : (p :: rest).foldl addOrigin m = rest.foldl addOrigin (addOrigin m p) :=
      List.foldl_cons _ _
    rw [hfold, ih (addOrigin m p)]
    by_cases hst : p.2.stack = o
    · have hflt : ((p :: rest).filter fun q => q.2.stack = o) =
          p :: (rest.filter fun q => q.2.stack = o) := by
        simp [List.filter_cons, hst]
      rw [hflt]
      cases hm : lookupA m p.2.stack with
      | some ci =>
        have haddl : lookupA (addOrigin m p) o = some (ci.1 + 1, ci.2 ++ [p.1]) := by
          unfold addOrigin
          rw [hm, lookupA_mapSet, if_pos hst]
        rw [haddl, hst] at *
        rw [hm]
        simp only [originCombine, List.length_cons, List.map_cons]
        refine congrArg some (Prod.ext ?_ ?_)
        · show ci.1 + 1 + _ = ci.1 + (_ + 1)
          omega
        · show (ci.2 ++ [p.1]) ++ _ = ci.2 ++ (p.1 :: _)
          simp
      | none =>
        have haddl : lookupA (addOrigin m p) o = some (1, [p.1]) := by
          unfold addOrigin
          rw [hm, lookupA_mapSet, if_pos hst]
        rw [haddl, hst] at *
        rw [hm]
        cases hrest : (rest.filter fun q => q.2.stack = o) with
        | nil => simp [originCombine]
        | cons a l =>
          simp only [originCombine, List.length_cons, List.map_cons]
          refine congrArg some (Prod.ext ?_ ?_)
          · show 1 + (l.length + 1) = l.length + 1 + 1
            omega
          · simp
    · have hflt : ((p :: rest).filter fun q => q.2.stack = o) =
          (rest.filter fun q => q.2.stack = o) := by
        simp [List.filter_cons, hst]
      rw [hflt]
      have haddl : lookupA (addOrigin m p) o = lookupA m o := by
        unfold addOrigin
        cases hm : lookupA m p.2.stack with
        | some ci => rw [lookupA_mapSet, if_neg hst]
        | none => rw [lookupA_mapSet, if_neg hst]
      rw [haddl]

theorem nodupKeys_foldl_addOrigin (entries : List (Nat × TimerInfo))
    (m : List (String × Nat × List Nat)) (hnd : NodupKeys m) :
    NodupKeys (entries.foldl addOrigin m) := by
  induction entries generalizing m with
  | nil => exact hnd
  | cons p rest ih =>
    have hfold : (p :: rest).foldl addOrigin m = rest.foldl addOrigin (addOrigin m p) :=
      List.foldl_cons _ _
    rw [hfold]
    apply ih
    unfold addOrigin
    cases lookupA m p.2.stack with
    | some ci => exact nodupKeys_mapSet _ _ _ hnd
    | none => exact nodupKeys_mapSet _ _ _ hnd

theorem length_filter_le_one_of_nodup_map {α β : Type} [DecidableEq β]
    (f : α → β) (l : List α) (b : β) (h : (l.map f).Nodup) :
    (l.filter fun x => f x = b).length ≤ 1 := by
  induction l with
  | nil => simp
  | cons x l ih =>
    simp only [List.map_cons, List.nodup_cons] at h
    by_cases hfx : f x = b
    · have hnil : (l.filter fun y => f y = b) = [] := by
        rw [List.filter_eq_nil_iff]
        intro a ha hab
        apply h.1
        rw [hfx]
        simp only [decide_eq_true_eq] at hab
        exact List.mem_map.2 ⟨a, ha, hab⟩
      simp [List.filter_cons, hfx, hnil]
    · have hsame : ((x :: l).filter fun y => f y = b) = (l.filter fun y => f y = b) := by
        simp [List.filter_cons, hfx]
      rw [hsame]
      exact ih h.2

/-- **C5.** The duplicates table computed by `report()` is
`duplicatesOf` over the union of the registries, and for every origin
`o`: a row with origin `o` exists iff `o` occurs on more than one entry
across timeouts and intervals together; any such row carries the exact
occurrence count (the number of timeout occurrences plus the number of
interval occurrences) and the comma-joined list of the handles bearing
`o`; and there is at most one row per origin, so single-occurrence
origins never appear. -/
theorem claim_C5_duplicate_origins (now : Int) (locale : Int → String) (s : Tracker)
    (o : String) :
    (report now locale s).1.duplicates
        = duplicatesOf (getActiveTimeouts s ++ getActiveIntervals s)
    ∧ ((∃ r ∈ duplicatesOf (getActiveTimeouts s ++ getActiveIntervals s), r.origin = o) ↔
        1 < ((getActiveTimeouts s ++ getActiveIntervals s).filter
          fun p => p.2.stack = o).length)
    ∧ (∀ r ∈ duplicatesOf (getActiveTimeouts s ++ getActiveIntervals s), r.origin = o →
        r.count = ((getActiveTimeouts s ++ getActiveIntervals s).filter
            fun p => p.2.stack = o).length
        ∧ r.ids = String.intercalate ", "
            (((getActiveTimeouts s ++ getActiveIntervals s).filter
              fun p => p.2.stack = o).map fun p => Nat.repr p.1))
    ∧ ((duplicatesOf (getActiveTimeouts s ++ getActiveIntervals s)).filter
        fun r => r.origin = o).length ≤ 1
    ∧ ((getActiveTimeouts s ++ getActiveIntervals s).filter
        fun p => p.2.stack = o).length
      = (s.timeouts.filter fun p => p.2.stack = o).length
        + (s.intervals.filter fun p => p.2.stack = o).length := by
  have hM := lookupA_foldl_addOrigin (getActiveTimeouts s ++ getActiveIntervals s) [] o
  have hnd := nodupKeys_foldl_addOrigin (getActiveTimeouts s ++ getActiveIntervals s) []
    nodupKeys_nil
  set E := getActiveTimeouts s ++ getActiveIntervals s with hE
  set occ := E.filter (fun p => p.2.stack = o) with hocc
  have hM' : lookupA (originMapOf E) o = originCombine none occ := hM
  have hnd' : NodupKeys (originMapOf E) := hnd
  have hrow : ∀ r ∈ duplicatesOf E, r.origin = o →
      1 < occ.length ∧ r.count = occ.length
        ∧ r.ids = String.intercalate ", " ((occ.map Prod.fst).map Nat.repr) := by
    intro r hr hro
    unfold duplicatesOf at hr
    obtain ⟨p, hpf, hpr⟩ := List.mem_map.1 hr
    obtain ⟨hpM, hq⟩ := List.mem_filter.1 hpf
    have hq' : 1 < p.2.1 := by simpa using hq
    have hporig : p.1 = o := by rw [← hpr] at hro; exact hro
    have hlook : lookupA (originMapOf E) o = some p.2 := by
      apply lookupA_eq_some_of_mem _ _ _ hnd'
      rw [← hporig]
      exact hpM
    rw [hM'] at hlook
    cases hocc2 : occ with
    | nil =>
      rw [hocc2] at hlook
      cases hlook
    | cons a l =>
      rw [hocc2] at hlook
      have hsome : some (((a :: l).length : Nat), (a :: l).map Prod.fst) = some p.2 := hlook
      have hp2 : p.2 = ((a :: l).length, (a :: l).map Prod.fst) :=
        (Option.some.inj hsome).symm
      refine ⟨?_, ?_, ?_⟩
      · rw [hp2] at hq'
        exact hq'
      · rw [← hpr]
        show p.2.1 = (a :: l).length
        rw [hp2]
      · rw [← hpr]
        show String.intercalate ", " (p.2.2.map Nat.repr) = _
        rw [hp2]
  have hexists : 1 < occ.length → ∃ r ∈ duplicatesOf E, r.origin = o := by
    intro hlen
    cases hocc2 : occ with
    | nil =>
      rw [hocc2] at hlen
      simp at hlen
    | cons a l =>
      have hlook : lookupA (originMapOf E) o =
          some (((a :: l).length : Nat), (a :: l).map Prod.fst) := by
        rw [hM', hocc2]
        rfl
      have hmem := mem_of_lookupA_eq_some _ _ _ hlook
      refine ⟨⟨o, (a :: l).length,
        String.intercalate ", " (((a :: l).map Prod.fst).map Nat.repr)⟩, ?_, rfl⟩
      unfold duplicatesOf
      apply List.mem_map.2
      refine ⟨(o, (a :: l).length, (a :: l).map Prod.fst), ?_, rfl⟩
      apply List.mem_filter.2
      refine ⟨hmem, ?_⟩
      rw [hocc2] at hlen
      simpa using hlen
  have hkeysnd : ((duplicatesOf E).map DupRow.origin).Nodup := by
    have h1 : (duplicatesOf E).map DupRow.origin
        = ((originMapOf E).filter fun p => 1 < p.2.1).map Prod.fst := by
      unfold duplicatesOf
      rw [List.map_map]
      rfl
    rw [h1]
    exact (List.Sublist.map Prod.fst (List.filter_sublist _)).nodup hnd'
  refine ⟨rfl, ⟨?_, hexists⟩, ?_, ?_, ?_⟩
  · rintro ⟨r, hr, hro⟩
    exact (hrow r hr hro).1
  · intro r hr hro
    refine ⟨(hrow r hr hro).2.1, ?_⟩
    rw [(hrow r hr hro).2.2, List.map_map]
    rfl
  · exact length_filter_le_one_of_nodup_map DupRow.origin (duplicatesOf E) o hkeysnd
  · rw [hocc, hE]
    show ((getActiveTimeouts s ++ getActiveIntervals s).filter _).length = _
    rw [List.filter_append, List.length_append]
    rfl

/-- Witness for **C5**: one timeout and one interval from `siteA`
(handles 1 and 2) and one interval from `siteB`; `siteA` yields the one
duplicate row with count 2 and ids `1, 2`, `siteB` yields none. -/
theorem claim_C5_duplicate_origins_witness :
    (∃ r ∈ duplicatesOf
        (getActiveTimeouts ⟨[(1, ⟨0, 5, "siteA"⟩)], [(2, ⟨0, 7, "siteA"⟩), (3, ⟨0, 9, "siteB"⟩)]⟩
          ++ getActiveIntervals ⟨[(1, ⟨0, 5, "siteA"⟩)], [(2, ⟨0, 7, "siteA"⟩), (3, ⟨0, 9, "siteB"⟩)]⟩),
        r.origin = "siteA")
    ∧ DupRow.count ⟨"siteA", 2, "1, 2"⟩ =
        ((getActiveTimeouts ⟨[(1, ⟨0, 5, "siteA"⟩)], [(2, ⟨0, 7, "siteA"⟩), (3, ⟨0, 9, "siteB"⟩)]⟩
          ++ getActiveIntervals ⟨[(1, ⟨0, 5, "siteA"⟩)], [(2, ⟨0, 7, "siteA"⟩), (3, ⟨0, 9, "siteB"⟩)]⟩).filter
          fun p => p.2.stack = "siteA").length
    ∧ DupRow.ids ⟨"siteA", 2, "1, 2"⟩ = String.intercalate ", "
        (((getActiveTimeouts ⟨[(1, ⟨0, 5, "siteA"⟩)], [(2, ⟨0, 7, "siteA"⟩), (3, ⟨0, 9, "siteB"⟩)]⟩
          ++ getActiveIntervals ⟨[(1, ⟨0, 5, "siteA"⟩)], [(2, ⟨0, 7, "siteA"⟩), (3, ⟨0, 9, "siteB"⟩)]⟩).filter
          fun p => p.2.stack = "siteA").map fun p => Nat.repr p.1)
    ∧ ((duplicatesOf
        (getActiveTimeouts ⟨[(1, ⟨0, 5, "siteA"⟩)], [(2, ⟨0, 7, "siteA"⟩), (3, ⟨0, 9, "siteB"⟩)]⟩
          ++ getActiveIntervals ⟨[(1, ⟨0, 5, "siteA"⟩)], [(2, ⟨0, 7, "siteA"⟩), (3, ⟨0, 9, "siteB"⟩)]⟩)).filter
        fun r => r.origin = "siteB").length ≤ 1 := by
  obtain ⟨hrep, hiff, hall, hle, hsum⟩ := claim_C5_duplicate_origins 0 (fun _ => "t")
    ⟨[(1, ⟨0, 5, "siteA"⟩)], [(2, ⟨0, 7, "siteA"⟩), (3, ⟨0, 9, "siteB"⟩)]⟩ "siteA"
  obtain ⟨_, _, _, hleB, _⟩ := claim_C5_duplicate_origins 0 (fun _ => "t")
    ⟨[(1, ⟨0, 5, "siteA"⟩)], [(2, ⟨0, 7, "siteA"⟩), (3, ⟨0, 9, "siteB"⟩)]⟩ "siteB"
  obtain ⟨hcount, hids⟩ := hall ⟨"siteA", 2, "1, 2"⟩ (by decide) rfl
  exact ⟨hiff.mpr (by decide), hcount, hids, hleB⟩
